import Mathlib

/-!
Shallow embedding of `src/backend/routes/incomingCalls.js`: an incoming-call
webhook ingestion route with a durable store, a bounded in-memory history
ring, a last-known-call cell, and a set of streaming subscribers.

JavaScript runtime values that flow through the route's payload fields are
modelled by `JSValue`; machine behaviour such as nullish coalescing (`??`),
truthiness (`||`, `if (x)`), `String(x)` conversion, `trim`, `toLowerCase`
and `parseInt` is made explicit.  Fallible store operations (schema init,
insert) are passed in as `Except` outcomes.  All definitions are computable
so that concrete inputs evaluate by `decide` or `rfl`.
-/

namespace IncomingCalls

/-- A JavaScript value as it can appear in a webhook payload field:
`null`, `undefined`, a boolean, an integer number, or a string.
(Non-integer numbers do not occur in the modelled paths.) -/
inductive JSValue where
  | jnull
  | jundef
  | jbool (b : Bool)
  | jnum (n : Int)
  | jstr (s : String)
deriving DecidableEq, Repr

/-- JavaScript `x == null` (loose equality): true exactly for `null` and
`undefined`. -/
def JSValue.isNullish : JSValue → Bool
  | .jnull => true
  | .jundef => true
  | _ => false

/-- JavaScript falsiness, as used by `!x` and `x || y`:
`null`, `undefined`, `false`, `0` and `""` are falsy. -/
def JSValue.falsy : JSValue → Bool
  | .jnull => true
  | .jundef => true
  | .jbool b => !b
  | .jnum n => n == 0
  | .jstr s => s == ""

/-- JavaScript `String(x)` conversion for the modelled value shapes. -/
def JSValue.toStringJS : JSValue → String
  | .jnull => "null"
  | .jundef => "undefined"
  | .jbool b => if b then "true" else "false"
  | .jnum n => toString n
  | .jstr s => s

/-- JavaScript nullish coalescing `a ?? b`. -/
def jsCoalesce (a b : JSValue) : JSValue :=
  if a.isNullish then b else a

/-- JavaScript logical or `a || b` (first truthy value). -/
def jsOr (a b : JSValue) : JSValue :=
  if a.falsy then b else a

/-- Whitespace characters removed by JavaScript `String.prototype.trim`
(the ASCII ones; the route's payloads carry ASCII strings). -/
def isJsWhitespace (c : Char) : Bool :=
  c == ' ' || c == '\t' || c == '\n' || c == '\r' || c == '\x0b' || c == '\x0c'

/-- JavaScript `s.trim()`: remove leading and trailing whitespace. -/
def trimJS (s : String) : String :=
  String.mk (((s.data.dropWhile isJsWhitespace).reverse.dropWhile isJsWhitespace).reverse)

/-- JavaScript `s.toLowerCase()` on the ASCII range. -/
def toLowerJS (s : String) : String :=
  String.mk (s.data.map fun c =>
    if 'A' ≤ c && c ≤ 'Z' then Char.ofNat (c.toNat + 32) else c)

/-- Whether the string starts with the character `+`
(JavaScript `str.startsWith('+')`). -/
def startsWithPlus (s : String) : Bool :=
  match s.data with
  | c :: _ => c == '+'
  | [] => false

/-- `STATUS_LABELS` from the source: the closed set of recognized status
labels (a JS `Set`, modelled as a list with `contains` as membership). -/
def STATUS_LABELS : List String := ["ringing", "answered", "missed", "rejected"]

/-- The string-level core of `normalizeStatus`, applied after the source
has stringified, trimmed and lowercased a non-falsy raw value: recognized
labels pass through; `"no_answer"` and `"noanswer"` fold to `"missed"`;
everything else falls back to `"ringing"`. -/
def normalizeStatusStr (status : String) : String :=
  if STATUS_LABELS.contains status then status
  else if status == "no_answer" || status == "noanswer" then "missed"
  else "ringing"

/-- `normalizeStatus(rawStatus)` from the source: falsy input gives
`"ringing"`; otherwise `String(rawStatus).trim().toLowerCase()` is fed to
the label table. -/
def normalizeStatus (rawStatus : JSValue) : String :=
  if rawStatus.falsy then "ringing"
  else normalizeStatusStr (toLowerJS (trimJS rawStatus.toStringJS))

/-- Whether a normalized status string is one of the labels or synonyms
that `normalizeStatus` recognizes (rather than falling back). -/
def recognizedStatusStr (status : String) : Bool :=
  STATUS_LABELS.contains status || status == "no_answer" || status == "noanswer"

/-- Whether a raw status value, once stringified, trimmed and lowercased,
is recognized by `normalizeStatus`. -/
def recognizedStatus (rawStatus : JSValue) : Bool :=
  recognizedStatusStr (toLowerJS (trimJS rawStatus.toStringJS))

/-- Result shape of `sanitizePhone`: the `{ display, digits }` pair. -/
structure PhoneResult where
  display : String
  digits : String
deriving DecidableEq, Repr

/-- `str.replace(/\D/g, '')` (line 33): keep only the decimal digits of
the trimmed string (JS `\D` is the complement of `[0-9]`). -/
def digitPart (str : String) : String :=
  String.mk (str.data.filter Char.isDigit)

/-- Lines 40-42: the digit string truncated to at most 20 characters. -/
def truncatedDigits (str : String) : String :=
  if (digitPart str).length > 20 then String.mk ((digitPart str).data.take 20)
  else digitPart str

/-- The string-level core of `sanitizePhone`, applied after the source has
stringified and trimmed a non-nullish raw value: an empty string or a
string with no digits gives the empty pair; otherwise `digits` is the
(truncated) digit string and `display` prefixes a `"+"` exactly when the
trimmed string starts with one. -/
def sanitizePhoneStr (str : String) : PhoneResult :=
  if str = "" then { display := "", digits := "" }
  else if digitPart str = "" then { display := "", digits := "" }
  else
    { display :=
        if startsWithPlus str then "+" ++ truncatedDigits str else truncatedDigits str
    , digits := truncatedDigits str }

/-- `sanitizePhone(rawValue)` from the source (lines 24-46): nullish input
gives the empty pair; otherwise `String(rawValue).trim()` is fed to the
string-level core. -/
def sanitizePhone (rawValue : JSValue) : PhoneResult :=
  if rawValue.isNullish then { display := "", digits := "" }
  else sanitizePhoneStr (trimJS rawValue.toStringJS)

end IncomingCalls

namespace IncomingCalls

/-- `normalizeStatusStr` always lands in the closed label set. -/
theorem normalizeStatusStr_mem (s : String) :
    STATUS_LABELS.contains (normalizeStatusStr s) = true := by
  unfold normalizeStatusStr
  by_cases hc : STATUS_LABELS.contains s = true
  · rw [if_pos hc]; exact hc
  · rw [if_neg hc]
    by_cases hn : (s == "no_answer" || s == "noanswer") = true
    · rw [if_pos hn]; decide
    · rw [if_neg hn]; decide

/-- An unrecognized normalized string falls back to `"ringing"`. -/
theorem normalizeStatusStr_unrecognized (s : String)
    (h : recognizedStatusStr s = false) : normalizeStatusStr s = "ringing" := by
  unfold recognizedStatusStr at h
  simp only [Bool.or_eq_false_iff] at h
  unfold normalizeStatusStr
  rw [if_neg (by rw [h.1.1]; exact Bool.false_ne_true),
      if_neg (by rw [h.1.2, h.2]; exact Bool.false_ne_true)]

/-- Claim C8: for every input value (null, undefined, booleans, numbers,
arbitrary strings), `normalizeStatus` returns a member of the closed set
{ringing, answered, missed, rejected} (it is a total function, so it never
raises); falsy (absent) input yields `"ringing"`, and so does any input
whose normalized form is unrecognized. -/
theorem c8_normalizeStatus_closed_set (v : JSValue) :
    STATUS_LABELS.contains (normalizeStatus v) = true ∧
    (v.falsy = true → normalizeStatus v = "ringing") ∧
    (recognizedStatus v = false → normalizeStatus v = "ringing") := by
  unfold normalizeStatus recognizedStatus
  by_cases hf : v.falsy = true
  · rw [if_pos hf]
    exact ⟨by decide, fun _ => rfl, fun _ => rfl⟩
  · rw [if_neg hf]
    exact ⟨normalizeStatusStr_mem _, fun h => absurd h hf,
      fun h => normalizeStatusStr_unrecognized _ h⟩

/-- Claim C8 witness: concrete evaluations discharging the hypotheses of
`c8_normalizeStatus_closed_set`. -/
theorem c8_normalizeStatus_closed_set_witness :
    STATUS_LABELS.contains (normalizeStatus (.jstr "Weird Input")) = true ∧
    normalizeStatus .jnull = "ringing" ∧
    normalizeStatus (.jstr "Weird Input") = "ringing" :=
  ⟨(c8_normalizeStatus_closed_set (.jstr "Weird Input")).1,
   (c8_normalizeStatus_closed_set .jnull).2.1 (by decide),
   (c8_normalizeStatus_closed_set (.jstr "Weird Input")).2.2 (by decide)⟩

/-- Claim C3 counterexample: the input `"no answer"` (with a space) trims
and lowercases to itself, yet `normalizeStatus` maps it to `"ringing"`,
not `"missed"` — the source folds only `"no_answer"` (underscore) and
`"noanswer"`. -/
theorem c3_no_answer_space_counterexample :
    toLowerJS (trimJS (JSValue.jstr "no answer").toStringJS) = "no answer" ∧
    normalizeStatus (.jstr "no answer") = "ringing" ∧
    normalizeStatus (.jstr "no answer") ≠ "missed" := by
  refine ⟨by decide, by decide, by decide⟩

/-- The falsy values are exactly five concrete `JSValue`s. -/
theorem falsy_cases (v : JSValue) (h : v.falsy = true) :
    v = .jnull ∨ v = .jundef ∨ v = .jbool false ∨ v = .jnum 0 ∨ v = .jstr "" := by
  cases v with
  | jnull => exact Or.inl rfl
  | jundef => exact Or.inr (Or.inl rfl)
  | jbool b =>
    cases b
    · exact Or.inr (Or.inr (Or.inl rfl))
    · simp [JSValue.falsy] at h
  | jnum n =>
    simp only [JSValue.falsy, beq_iff_eq] at h
    exact Or.inr (Or.inr (Or.inr (Or.inl (by rw [h]))))
  | jstr s =>
    simp only [JSValue.falsy, beq_iff_eq] at h
    exact Or.inr (Or.inr (Or.inr (Or.inr (by rw [h]))))

/-- Claim C3 amended: `normalizeStatus` maps any input that, after
stringifying, trimming and lowercasing, equals `"no_answer"` (underscore,
not space) or `"noanswer"` to `"missed"`. -/
theorem c3_noanswer_synonyms_to_missed (v : JSValue)
    (h : toLowerJS (trimJS v.toStringJS) = "no_answer" ∨
         toLowerJS (trimJS v.toStringJS) = "noanswer") :
    normalizeStatus v = "missed" := by
  unfold normalizeStatus
  by_cases hf : v.falsy = true
  · exfalso
    rcases falsy_cases v hf with h5 | h5 | h5 | h5 | h5 <;> subst h5 <;>
      rcases h with h | h <;> revert h <;> decide
  · rw [if_neg hf]
    rcases h with h | h <;> rw [h] <;> decide

/-- Claim C3 witness: concrete inputs discharging the hypothesis of
`c3_noanswer_synonyms_to_missed`. -/
theorem c3_noanswer_synonyms_to_missed_witness :
    normalizeStatus (.jstr "  NO_ANSWER ") = "missed" ∧
    normalizeStatus (.jstr "NoAnswer") = "missed" :=
  ⟨c3_noanswer_synonyms_to_missed (.jstr "  NO_ANSWER ") (Or.inl (by decide)),
   c3_noanswer_synonyms_to_missed (.jstr "NoAnswer") (Or.inr (by decide))⟩

end IncomingCalls

namespace IncomingCalls

/-- The truncated digit string consists of digit characters only. -/
theorem truncatedDigits_all_digits (str : String) :
    (truncatedDigits str).data.all Char.isDigit = true := by
  unfold truncatedDigits digitPart
  by_cases h : (String.mk (str.data.filter Char.isDigit)).length > 20
  · rw [if_pos h]
    simp only [List.all_eq_true]
    intro c hc
    exact List.of_mem_filter (List.mem_of_mem_take hc)
  · rw [if_neg h]
    simp only [List.all_eq_true]
    intro c hc
    exact List.of_mem_filter hc

/-- The truncated digit string has length at most 20. -/
theorem truncatedDigits_length_le (str : String) :
    (truncatedDigits str).length ≤ 20 := by
  unfold truncatedDigits
  by_cases h : (digitPart str).length > 20
  · rw [if_pos h]
    simp [List.length_take]
  · rw [if_neg h]
    omega

/-- If the digit string is non-empty, truncation keeps it non-empty. -/
theorem truncatedDigits_ne_empty (str : String) (h : digitPart str ≠ "") :
    truncatedDigits str ≠ "" := by
  unfold truncatedDigits
  by_cases hl : (digitPart str).length > 20
  · rw [if_pos hl]
    intro he
    have : (String.mk ((digitPart str).data.take 20)).length = 0 := by rw [he]; rfl
    simp only [String.length_mk, List.length_take] at this
    have : (digitPart str).length = (digitPart str).data.length := rfl
    omega
  · rw [if_neg hl]
    exact h

/-- Claim C9: for every input, `sanitizePhone` (a total function — it never
raises) returns a `digits` string containing only `[0-9]` characters of
length at most 20; the result is the empty pair exactly when the input is
nullish, trims to the empty string, or contains no digit; and `display`
equals `digits` prefixed with `"+"` exactly when the trimmed input starts
with `"+"` (and equals plain `digits` otherwise, and is empty in the empty
case). -/
theorem c9_sanitizePhone_shape (v : JSValue) :
    (sanitizePhone v).digits.data.all Char.isDigit = true ∧
    (sanitizePhone v).digits.length ≤ 20 ∧
    (sanitizePhone v = { display := "", digits := "" } ↔
      (v.isNullish = true ∨ trimJS v.toStringJS = "" ∨
        (trimJS v.toStringJS).data.all (fun c => !c.isDigit) = true)) ∧
    (sanitizePhone v).display =
      (if (sanitizePhone v).digits = "" then ""
       else if startsWithPlus (trimJS v.toStringJS) = true
       then "+" ++ (sanitizePhone v).digits
       else (sanitizePhone v).digits) := by
  have hfilter : ∀ s : String,
      digitPart s = "" ↔ s.data.all (fun c => !c.isDigit) = true := by
    intro s
    unfold digitPart
    constructor
    · intro h
      have hd : s.data.filter Char.isDigit = [] := congrArg String.data h
      simp only [List.all_eq_true, Bool.not_eq_true']
      intro c hc
      by_contra hcd
      have : c ∈ s.data.filter Char.isDigit :=
        List.mem_filter.2 ⟨hc, by revert hcd; cases Char.isDigit c <;> simp⟩
      rw [hd] at this
      exact absurd this (List.not_mem_nil c)
    · intro h
      have : s.data.filter Char.isDigit = [] := by
        rw [List.filter_eq_nil_iff]
        intro c hc
        have := (List.all_eq_true.1 h) c hc
        revert this
        cases Char.isDigit c <;> simp
      rw [this]
  unfold sanitizePhone
  by_cases hn : v.isNullish = true
  · rw [if_pos hn]
    exact ⟨by decide, by decide, iff_of_true rfl (Or.inl hn), by simp⟩
  · rw [if_neg hn]
    unfold sanitizePhoneStr
    by_cases he : trimJS v.toStringJS = ""
    · rw [if_pos he]
      exact ⟨by decide, by decide, iff_of_true rfl (Or.inr (Or.inl he)), by simp⟩
    · rw [if_neg he]
      by_cases hd : digitPart (trimJS v.toStringJS) = ""
      · rw [if_pos hd]
        exact ⟨by decide, by decide,
          iff_of_true rfl (Or.inr (Or.inr ((hfilter _).1 hd))), by simp⟩
      · rw [if_neg hd]
        have hne := truncatedDigits_ne_empty _ hd
        refine ⟨truncatedDigits_all_digits _, truncatedDigits_length_le _, ?_, ?_⟩
        · constructor
          · intro h
            exact absurd (congrArg PhoneResult.digits h) hne
          · intro h
            rcases h with h | h | h
            · exact absurd h hn
            · exact absurd h he
            · exact absurd ((hfilter _).2 h) hd
        · simp only [if_neg hne]

/-- Claim C9 has no hypotheses beyond the quantified input, but record a
concrete evaluation anyway: a plus-prefixed number with punctuation. -/
theorem c9_sanitizePhone_shape_example :
    sanitizePhone (.jstr " +40 (712) 345-678 ") =
      { display := "+40712345678", digits := "40712345678" } := by decide

end IncomingCalls

namespace IncomingCalls

/-- `MAX_HISTORY` from the source (line 10). -/
def MAX_HISTORY : Nat := 500

/-- JavaScript `Number.parseInt(s, 10)`: trim, optional single sign, then
the maximal leading run of decimal digits; `none` models `NaN` (no digits).
-/
def parseIntJS (s : String) : Option Int :=
  let chars := (trimJS s).data
  let signed : Int × List Char :=
    match chars with
    | '-' :: rest => (-1, rest)
    | '+' :: rest => (1, rest)
    | rest => (1, rest)
  let ds := signed.2.takeWhile Char.isDigit
  if ds = [] then none
  else some (signed.1 * Int.ofNat (ds.foldl (fun acc c => 10 * acc + (c.toNat - 48)) 0))

/-- The effective `limit` of `GET /log` (line 291):
`Math.max(1, Math.min(Number.parseInt(req.query?.limit, 10) || 100, MAX_HISTORY))`.
`limitParam` is the raw query parameter (`none` when absent, in which case
`parseInt` receives `undefined` and yields NaN); `|| 100` replaces both NaN
and the falsy parsed value `0` by the default `100`. -/
def effectiveLimit (limitParam : Option String) : Int :=
  let parsed : Option Int := limitParam.bind parseIntJS
  let v : Int :=
    match parsed with
    | none => 100
    | some n => if n = 0 then 100 else n
  max 1 (min v (MAX_HISTORY : Int))

/-- Claim C4 counterexample: a supplied `limit` of `"0"` parses as the
integer 0, but the effective limit is the default 100, not the clamped
value 1 the claim requires — `parseInt(...) || 100` treats 0 as falsy. -/
theorem c4_limit_zero_counterexample :
    parseIntJS "0" = some 0 ∧ effectiveLimit (some "0") = 100 ∧ (100 : Int) ≠ 1 := by
  refine ⟨by decide, by decide, by decide⟩

/-- Claim C4 amended: a supplied `limit` parsing to a nonzero integer `n`
is clamped to `[1, 500]` (negative values give 1, values above 500 give
500, in-range values pass through); a value parsing to 0, an unparsable
value, and an absent parameter all give the default 100. -/
theorem c4_limit_clamping :
    (∀ s n, parseIntJS s = some n → n ≠ 0 →
      effectiveLimit (some s) = max 1 (min n 500)) ∧
    (∀ s, parseIntJS s = some 0 → effectiveLimit (some s) = 100) ∧
    (∀ s, parseIntJS s = none → effectiveLimit (some s) = 100) ∧
    effectiveLimit none = 100 ∧
    (∀ s n, parseIntJS s = some n → n < 0 → effectiveLimit (some s) = 1) ∧
    (∀ s n, parseIntJS s = some n → 500 < n → effectiveLimit (some s) = 500) ∧
    (∀ s n, parseIntJS s = some n → 1 ≤ n → n ≤ 500 → effectiveLimit (some s) = n) := by
  refine ⟨?_, ?_, ?_, ?_, ?_, ?_, ?_⟩
  · intro s n h hn
    simp only [effectiveLimit, Option.some_bind, h, MAX_HISTORY, if_neg hn]
    norm_num
  · intro s h
    simp [effectiveLimit, h, MAX_HISTORY]
  · intro s h
    simp [effectiveLimit, h, MAX_HISTORY]
  · simp [effectiveLimit, MAX_HISTORY]
  · intro s n h hn
    simp only [effectiveLimit, Option.some_bind, h, MAX_HISTORY, if_neg (by omega : ¬n = 0)]
    norm_num
    omega
  · intro s n h hn
    simp only [effectiveLimit, Option.some_bind, h, MAX_HISTORY, if_neg (by omega : ¬n = 0)]
    norm_num
    omega
  · intro s n h h1 h2
    simp only [effectiveLimit, Option.some_bind, h, MAX_HISTORY, if_neg (by omega : ¬n = 0)]
    norm_num
    omega

/-- Claim C4 witness: concrete limits discharging the hypotheses of
`c4_limit_clamping`. -/
theorem c4_limit_clamping_witness :
    effectiveLimit (some "42") = max 1 (min 42 500) ∧
    effectiveLimit (some "0") = 100 ∧
    effectiveLimit (some "abc") = 100 ∧
    effectiveLimit (some "-3") = 1 ∧
    effectiveLimit (some "900") = 500 ∧
    effectiveLimit (some "7") = 7 :=
  ⟨c4_limit_clamping.1 "42" 42 (by decide) (by decide),
   c4_limit_clamping.2.1 "0" (by decide),
   c4_limit_clamping.2.2.1 "abc" (by decide),
   c4_limit_clamping.2.2.2.2.1 "-3" (-3) (by decide) (by decide),
   c4_limit_clamping.2.2.2.2.2.1 "900" 900 (by decide) (by decide),
   c4_limit_clamping.2.2.2.2.2.2 "7" 7 (by decide) (by decide) (by decide)⟩

end IncomingCalls

namespace IncomingCalls

/-- The module state driving `ensurePersistenceReady` (line 12:
`let readyPromise = null`), observed at the level of settled promises: the
cached outcome of the one-time initialization if one has been started,
plus a count of initialization attempts that actually executed (an
observation added for stating the single-flight property; not a source
variable). -/
structure InitState where
  readyOutcome : Option (Except String Unit)
  attempts : Nat

/-- The state before any request: `readyPromise = null`. -/
def initialInitState : InitState := { readyOutcome := none, attempts := 0 }

/-- `ensurePersistenceReady()` (lines 52-109): if no `readyPromise` is
cached, a fresh initialization executes — `runInit` is the outcome (schema
creation plus history bootstrap; `Except.error` on store failure) that a
fresh attempt would produce — and the resulting promise is cached
unconditionally; once cached, the same outcome is returned to every later
caller, and the cache is never cleared, not even when the outcome is an
error (the `catch` on lines 101-104 only logs and rethrows). -/
def ensurePersistenceReady (runInit : Except String Unit) (s : InitState) :
    Except String Unit × InitState :=
  match s.readyOutcome with
  | some r => (r, s)
  | none => (runInit, { readyOutcome := some runInit, attempts := s.attempts + 1 })

/-- Claim C2 counterexample: after a first initialization that fails with a
store error, a second request — for which a fresh initialization would now
succeed — still receives the remembered failure, and no fresh attempt
executes (the attempt count stays at 1). -/
theorem c2_failed_init_remembered_counterexample :
    (ensurePersistenceReady (.ok ())
      (ensurePersistenceReady (.error "store down") initialInitState).2).1 =
        .error "store down" ∧
    (ensurePersistenceReady (.ok ())
      (ensurePersistenceReady (.error "store down") initialInitState).2).2.attempts = 1 :=
  ⟨rfl, rfl⟩

/-- Claim C2 amended: the single-flight outcome — success or failure — is
remembered permanently: once any initialization outcome is cached, every
subsequent call returns that same outcome unchanged and performs no fresh
initialization attempt. -/
theorem c2_init_outcome_cached_forever (runInit : Except String Unit)
    (s : InitState) (r : Except String Unit) (h : s.readyOutcome = some r) :
    ensurePersistenceReady runInit s = (r, s) := by
  unfold ensurePersistenceReady
  rw [h]

/-- Claim C2 witness: a concrete cached failure discharging the hypothesis
of `c2_init_outcome_cached_forever`. -/
theorem c2_init_outcome_cached_forever_witness :
    ensurePersistenceReady (.ok ())
      { readyOutcome := some (.error "store down"), attempts := 1 } =
      (.error "store down", { readyOutcome := some (.error "store down"), attempts := 1 }) :=
  c2_init_outcome_cached_forever (.ok ())
    { readyOutcome := some (.error "store down"), attempts := 1 }
    (.error "store down") rfl

end IncomingCalls

namespace IncomingCalls

/-- `storeInHistory(entry)` (lines 130-135): `unshift` the entry at the
front of `callHistory`, then `pop` the last (oldest) entry when the length
exceeds `MAX_HISTORY`. -/
def storeInHistory {α : Type} (entry : α) (callHistory : List α) : List α :=
  if (entry :: callHistory).length > MAX_HISTORY then (entry :: callHistory).dropLast
  else entry :: callHistory

/-- A sequence of `storeInHistory` pushes, first element pushed first. -/
def pushAll {α : Type} (events : List α) (callHistory : List α) : List α :=
  events.foldl (fun acc e => storeInHistory e acc) callHistory

/-- Below capacity a push just conses; at capacity it drops the oldest —
in both cases a `take` of the consed list. -/
theorem storeInHistory_eq_take {α : Type} (e : α) (h : List α)
    (hh : h.length ≤ MAX_HISTORY) :
    storeInHistory e h = (e :: h).take MAX_HISTORY := by
  unfold storeInHistory
  by_cases hl : (e :: h).length > MAX_HISTORY
  · rw [if_pos hl, List.dropLast_eq_take]
    congr 1
    simp only [List.length_cons] at hl ⊢
    omega
  · rw [if_neg hl]
    exact (List.take_of_length_le (by simp only [List.length_cons] at hl ⊢; omega)).symm

/-- Taking `n` distributes over an already-taken right summand. -/
theorem take_append_take {α : Type} (a b : List α) (n : Nat) :
    (a ++ b.take n).take n = (a ++ b).take n := by
  rw [List.take_append_eq_append_take, List.take_append_eq_append_take,
    List.take_take, Nat.min_eq_left (Nat.sub_le n a.length)]

/-- Pushing a sequence of events onto a history within capacity yields the
newest `MAX_HISTORY` entries, newest-first. -/
theorem pushAll_eq_take {α : Type} (events : List α) :
    ∀ ch : List α, ch.length ≤ MAX_HISTORY →
      pushAll events ch = (events.reverse ++ ch).take MAX_HISTORY := by
  induction events with
  | nil =>
    intro ch hch
    simp only [pushAll, List.foldl_nil, List.reverse_nil, List.nil_append]
    exact (List.take_of_length_le hch).symm
  | cons e es ih =>
    intro ch hch
    have hstep : pushAll (e :: es) ch = pushAll es (storeInHistory e ch) := rfl
    rw [hstep, storeInHistory_eq_take e ch hch,
      ih ((e :: ch).take MAX_HISTORY) (by simp [List.length_take]),
      take_append_take, List.reverse_cons, List.append_assoc]
    rfl

/-- Claim C6: the History Ring never exceeds `MAX_HISTORY = 500` entries;
pushing any sequence of events onto the empty ring leaves exactly the last
500 pushed events, newest-first (`events.reverse.take 500`); every push
inserts at the front and either keeps everything or evicts exactly the
last (oldest) entry; and for more than 500 distinct events, every event
before the last 500 is absent from the ring. -/
theorem c6_history_ring_bounded (α : Type) :
    (∀ (e : α) (h : List α), h.length ≤ MAX_HISTORY →
      (storeInHistory e h).length ≤ MAX_HISTORY) ∧
    (∀ events : List α, pushAll events [] = events.reverse.take MAX_HISTORY) ∧
    (∀ events : List α, (pushAll events []).length ≤ MAX_HISTORY) ∧
    (∀ (e : α) (h : List α), (storeInHistory e h).head? = some e ∧
      (storeInHistory e h = e :: h ∨ storeInHistory e h = (e :: h).dropLast)) ∧
    (∀ (events : List α) (e : α), MAX_HISTORY < events.length → events.Nodup →
      e ∈ events.take (events.length - MAX_HISTORY) → e ∉ pushAll events []) := by
  have hpush : ∀ events : List α, pushAll events [] = events.reverse.take MAX_HISTORY := by
    intro events
    rw [pushAll_eq_take events [] (by simp [MAX_HISTORY]), List.append_nil]
  refine ⟨?_, hpush, ?_, ?_, ?_⟩
  · intro e h hh
    rw [storeInHistory_eq_take e h hh]
    simp only [List.length_take]
    omega
  · intro events
    rw [hpush events]
    simp only [List.length_take]
    omega
  · intro e h
    unfold storeInHistory
    by_cases hl : (e :: h).length > MAX_HISTORY
    · rw [if_pos hl]
      refine ⟨?_, Or.inr rfl⟩
      cases h with
      | nil => simp [MAX_HISTORY] at hl
      | cons y t => rw [List.dropLast_cons₂]; rfl
    · rw [if_neg hl]
      exact ⟨rfl, Or.inl rfl⟩
  · intro events e hlen hnodup hmem hcontra
    rw [hpush events, List.take_reverse, List.mem_reverse] at hcontra
    have hsplit := List.take_append_drop (events.length - MAX_HISTORY) events
    rw [← hsplit] at hnodup
    exact List.disjoint_of_nodup_append hnodup hmem hcontra

/-- Claim C6 witness: 501 distinct events pushed in sequence; the first
(oldest) one is absent, and a push within capacity respects the bound. -/
theorem c6_history_ring_bounded_witness :
    (0 : Nat) ∉ pushAll (List.range 501) [] ∧
    (storeInHistory (0 : Nat) []).length ≤ MAX_HISTORY :=
  ⟨(c6_history_ring_bounded Nat).2.2.2.2 (List.range 501) 0
      (by simp [MAX_HISTORY]) (List.nodup_range 501)
      (by simp [List.take_range, MAX_HISTORY]),
   (c6_history_ring_bounded Nat).1 0 [] (by simp [MAX_HISTORY])⟩

end IncomingCalls

namespace IncomingCalls

/-- One streaming subscriber (lines 245-252): its identity (the `res` sink
object, modelled by a numeric id `lid`) and whether a heartbeat interval
timer handle is attached. -/
structure Listener where
  lid : Nat
  heartbeatActive : Bool
deriving DecidableEq, Repr

/-- `cleanupListener(listener)` (lines 122-128): clear the heartbeat timer
when one is attached (recorded on the `cancelled` log) and delete the
listener from the registry. -/
def cleanupListener (l : Listener) (registry : List Listener) (cancelled : List Nat) :
    List Listener × List Nat :=
  ( registry.filter (fun x => decide (x ≠ l))
  , if l.heartbeatActive then cancelled ++ [l.lid] else cancelled )

/-- The observable outcome of one `broadcast` call: which sinks were
written successfully (`delivered`), the registry afterwards, and which
heartbeat timers were cleared. -/
structure BroadcastResult where
  delivered : List Nat
  listeners : List Listener
  cancelled : List Nat
deriving DecidableEq, Repr

/-- One iteration of the loop in `broadcast` (lines 113-119): try to write
the payload to the listener's sink; `failsOn` tells which sinks throw.  On
success the write is recorded; on failure `cleanupListener` runs. -/
def broadcastStep (failsOn : Nat → Bool) (acc : BroadcastResult) (l : Listener) :
    BroadcastResult :=
  if failsOn l.lid then
    let cleaned := cleanupListener l acc.listeners acc.cancelled
    { delivered := acc.delivered, listeners := cleaned.1, cancelled := cleaned.2 }
  else
    { delivered := acc.delivered ++ [l.lid], listeners := acc.listeners
    , cancelled := acc.cancelled }

/-- `broadcast(event)` (lines 111-120): iterate over a snapshot
(`Array.from(listeners)`) of the registry, writing to every sink, with a
per-listener try/catch that prunes a failing listener without stopping the
loop. -/
def broadcast (failsOn : Nat → Bool) (registry : List Listener) : BroadcastResult :=
  registry.foldl (broadcastStep failsOn)
    { delivered := [], listeners := registry, cancelled := [] }

/-- Entries already delivered stay delivered through later iterations. -/
theorem broadcastSteps_delivered_mono (failsOn : Nat → Bool) :
    ∀ (ls : List Listener) (acc : BroadcastResult) (x : Nat),
      x ∈ acc.delivered → x ∈ (ls.foldl (broadcastStep failsOn) acc).delivered := by
  intro ls
  induction ls with
  | nil => intro acc x hx; exact hx
  | cons l rest ih =>
    intro acc x hx
    simp only [List.foldl_cons]
    refine ih (broadcastStep failsOn acc l) x ?_
    unfold broadcastStep
    by_cases hf : failsOn l.lid = true
    · rw [if_pos hf]; exact hx
    · rw [if_neg hf]
      exact List.mem_append_left _ hx

/-- Cancellations already recorded stay recorded through later iterations. -/
theorem broadcastSteps_cancelled_mono (failsOn : Nat → Bool) :
    ∀ (ls : List Listener) (acc : BroadcastResult) (x : Nat),
      x ∈ acc.cancelled → x ∈ (ls.foldl (broadcastStep failsOn) acc).cancelled := by
  intro ls
  induction ls with
  | nil => intro acc x hx; exact hx
  | cons l rest ih =>
    intro acc x hx
    simp only [List.foldl_cons]
    refine ih (broadcastStep failsOn acc l) x ?_
    unfold broadcastStep cleanupListener
    by_cases hf : failsOn l.lid = true
    · rw [if_pos hf]
      by_cases hb : l.heartbeatActive = true
      · simp only [hb, if_true]
        exact List.mem_append_left _ hx
      · simp only [hb]
        simpa using hx
    · rw [if_neg hf]; exact hx

/-- The registry only ever shrinks during a broadcast. -/
theorem broadcastSteps_listeners_subset (failsOn : Nat → Bool) :
    ∀ (ls : List Listener) (acc : BroadcastResult) (x : Listener),
      x ∈ (ls.foldl (broadcastStep failsOn) acc).listeners → x ∈ acc.listeners := by
  intro ls
  induction ls with
  | nil => intro acc x hx; exact hx
  | cons l rest ih =>
    intro acc x hx
    simp only [List.foldl_cons] at hx
    have hx2 := ih (broadcastStep failsOn acc l) x hx
    revert hx2
    unfold broadcastStep cleanupListener
    by_cases hf : failsOn l.lid = true
    · rw [if_pos hf]
      intro hx2
      simp only [List.mem_filter] at hx2
      exact hx2.1
    · rw [if_neg hf]
      intro hx2
      exact hx2

/-- Claim C7: during a broadcast, a failing sink does not prevent delivery
to any other registered subscriber — every registered listener whose write
succeeds receives the event — and every registered listener whose write
fails is absent from the registry afterwards, with its heartbeat timer
cancelled when it had one. -/
theorem c7_broadcast_isolation (failsOn : Nat → Bool) (registry : List Listener)
    (l : Listener) (hmem : l ∈ registry) :
    (failsOn l.lid = false → l.lid ∈ (broadcast failsOn registry).delivered) ∧
    (failsOn l.lid = true → l ∉ (broadcast failsOn registry).listeners ∧
      (l.heartbeatActive = true → l.lid ∈ (broadcast failsOn registry).cancelled)) := by
  obtain ⟨pre, post, hsplit⟩ := List.append_of_mem hmem
  unfold broadcast
  rw [hsplit, List.foldl_append, List.foldl_cons]
  set acc0 := pre.foldl (broadcastStep failsOn)
    { delivered := [], listeners := pre ++ l :: post, cancelled := [] } with hacc0
  constructor
  · intro hok
    refine broadcastSteps_delivered_mono failsOn post _ l.lid ?_
    unfold broadcastStep
    rw [if_neg (by rw [hok]; exact Bool.false_ne_true)]
    exact List.mem_append_right _ (List.mem_singleton.2 rfl)
  · intro hfail
    constructor
    · intro hcontra
      have := broadcastSteps_listeners_subset failsOn post _ l hcontra
      revert this
      unfold broadcastStep cleanupListener
      rw [if_pos hfail]
      intro hthis
      simp only [List.mem_filter, decide_eq_true_eq] at hthis
      exact hthis.2 rfl
    · intro hb
      refine broadcastSteps_cancelled_mono failsOn post _ l.lid ?_
      unfold broadcastStep cleanupListener
      rw [if_pos hfail]
      simp only [hb, if_true]
      exact List.mem_append_right _ (List.mem_singleton.2 rfl)

/-- Claim C7 witness: two subscribers, sink 1 failing and sink 2 healthy —
2 still receives the event; 1 is pruned and its heartbeat cancelled. -/
theorem c7_broadcast_isolation_witness :
    (2 : Nat) ∈ (broadcast (fun n => n == 1)
      [{ lid := 1, heartbeatActive := true }, { lid := 2, heartbeatActive := true }]).delivered ∧
    ({ lid := 1, heartbeatActive := true } : Listener) ∉ (broadcast (fun n => n == 1)
      [{ lid := 1, heartbeatActive := true }, { lid := 2, heartbeatActive := true }]).listeners ∧
    (1 : Nat) ∈ (broadcast (fun n => n == 1)
      [{ lid := 1, heartbeatActive := true }, { lid := 2, heartbeatActive := true }]).cancelled :=
  ⟨(c7_broadcast_isolation (fun n => n == 1) _
      { lid := 2, heartbeatActive := true } (by decide)).1 (by decide),
   ((c7_broadcast_isolation (fun n => n == 1) _
      { lid := 1, heartbeatActive := true } (by decide)).2 (by decide)).1,
   ((c7_broadcast_isolation (fun n => n == 1) _
      { lid := 1, heartbeatActive := true } (by decide)).2 (by decide)).2 rfl⟩

end IncomingCalls

namespace IncomingCalls

/-- The webhook request body fields read by `router.post('/')`
(lines 145-173); `jundef` models an absent field. -/
structure RequestBody where
  phone : JSValue
  caller : JSValue
  number : JSValue
  extension : JSValue
  source : JSValue
  status : JSValue
  note : JSValue
  name : JSValue
  person_id : JSValue
  secret : JSValue
deriving DecidableEq, Repr

/-- A POST request: body plus the `x-pbx-secret` header and the `secret`
query parameter (line 146). -/
structure PostRequest where
  body : RequestBody
  headerSecret : JSValue
  querySecret : JSValue
deriving DecidableEq, Repr

/-- A request body with every field absent. -/
def emptyBody : RequestBody :=
  { phone := .jundef, caller := .jundef, number := .jundef, extension := .jundef
  , source := .jundef, status := .jundef, note := .jundef, name := .jundef
  , person_id := .jundef, secret := .jundef }

/-- Line 157: `req.body?.phone ?? req.body?.caller ?? req.body?.number ?? ''`
— nullish coalescing over the alternative phone field names. -/
def extractPhone (body : RequestBody) : JSValue :=
  jsCoalesce body.phone (jsCoalesce body.caller (jsCoalesce body.number (.jstr "")))

/-- Lines 159-161: the request is rejected with 400 when sanitizing the
extracted phone value yields both an empty display and empty digits. -/
def phoneMissing (body : RequestBody) : Bool :=
  (sanitizePhone (extractPhone body)).display == "" &&
    (sanitizePhone (extractPhone body)).digits == ""

/-- Line 146: `req.get('x-pbx-secret') || req.body?.secret || req.query?.secret`. -/
def providedSecret (req : PostRequest) : JSValue :=
  jsOr req.headerSecret (jsOr req.body.secret req.querySecret)

/-- Lines 145-155: when a non-empty webhook secret is configured in the
environment, the provided secret must be truthy and strictly equal to it;
otherwise the request is accepted (with only a one-time warning logged). -/
def authPasses (envSecret : Option String) (req : PostRequest) : Bool :=
  match envSecret with
  | none => true
  | some sec =>
    if sec = "" then true
    else !(providedSecret req).falsy && decide (providedSecret req = JSValue.jstr sec)

/-- `entry.meta` (lines 170-173). -/
structure CallMeta where
  callerName : Option String
  personId : JSValue
deriving DecidableEq, Repr

/-- The assembled CallEvent (lines 198-208). -/
structure CallEntry where
  id : String
  phone : String
  digits : String
  extension : Option String
  source : Option String
  received_at : String
  status : String
  note : Option String
  meta : CallMeta
deriving DecidableEq, Repr

/-- JS `x || null` on an optional trimmed string: an empty string is falsy
and becomes null. -/
def optNonEmpty (o : Option String) : Option String :=
  match o with
  | some t => if t = "" then none else some t
  | none => none

/-- The route's module-level mutable state: `callHistory` (line 11),
`lastCall` (line 7), `sequence` (line 8), plus a log of the events handed
to `broadcast` (an observation, not a source variable; per-listener
delivery is modelled separately by `broadcast`). -/
structure ServerState where
  callHistory : List CallEntry
  lastCall : Option CallEntry
  sequence : Nat
  broadcasts : List CallEntry
deriving DecidableEq, Repr

/-- The module state at process start (lines 7-11). -/
def initialServerState : ServerState :=
  { callHistory := [], lastCall := none, sequence := 0, broadcasts := [] }

/-- Line 195: the event id is the store-assigned `insertId` when truthy
(present and nonzero), otherwise `++sequence`; returns the numeric id and
the sequence value after the possible increment.  (`String(id)` and
`Number(id)` round-trip on these decimal values, so the id is kept as a
number here and stringified in the entry.) -/
def assignId (insertId : Option Nat) (sequence : Nat) : Nat × Nat :=
  match insertId with
  | some i => if i ≠ 0 then (i, sequence) else (sequence + 1, sequence + 1)
  | none => (sequence + 1, sequence + 1)

/-- Line 196: `sequence = Math.max(sequence, Number(id) || sequence)`. -/
def updatedSequence (seqAfterAssign idNum : Nat) : Nat :=
  max seqAfterAssign (if idNum = 0 then seqAfterAssign else idNum)

/-- The CallEvent assembled on lines 198-208 from the request fields
(lines 157-173): `phone` is `display || digits`; `extension`, `source` and
`note` fall back to null when empty after trimming; `meta.callerName` is a
non-empty trimmed `name` string; `meta.personId` is `person_id ?? null`. -/
def assembleEntry (req : PostRequest) (receivedAt : String) (id : String) : CallEntry :=
  { id := id
  , phone :=
      if (sanitizePhone (extractPhone req.body)).display = ""
      then (sanitizePhone (extractPhone req.body)).digits
      else (sanitizePhone (extractPhone req.body)).display
  , digits := (sanitizePhone (extractPhone req.body)).digits
  , extension := optNonEmpty
      (if req.body.extension.isNullish then none
       else some (trimJS req.body.extension.toStringJS))
  , source := optNonEmpty
      (if req.body.source.isNullish then none
       else some (trimJS req.body.source.toStringJS))
  , received_at := receivedAt
  , status := normalizeStatus req.body.status
  , note := optNonEmpty
      (match req.body.note with
       | .jstr n => some (trimJS n)
       | _ => none)
  , meta :=
      { callerName :=
          match req.body.name with
          | .jstr n => if trimJS n = "" then none else some (trimJS n)
          | _ => none
      , personId := jsCoalesce req.body.person_id .jnull } }

/-- The HTTP responses of `router.post('/')` (lines 137-219). -/
inductive PostResponse where
  | ok
  | badRequest
  | unauthorized
  | serverError
deriving DecidableEq, Repr

/-- `router.post('/')` (lines 137-219): await the one-time initialization
(`initOutcome` is its settled outcome; error gives 500); check the shared
secret (mismatch gives 401); extract and sanitize the phone (empty gives
400); insert into the store (`insertOutcome` is the insert result; error
gives 500 with no state change); on success assemble the entry, push it to
the history ring, assign it as the last-known call, hand it to `broadcast`,
and respond 200. -/
def postHandler (envSecret : Option String) (initOutcome : Except String Unit)
    (insertOutcome : Except String (Option Nat)) (req : PostRequest)
    (receivedAt : String) (s : ServerState) : PostResponse × ServerState :=
  match initOutcome with
  | .error _ => (.serverError, s)
  | .ok _ =>
    if authPasses envSecret req then
      if phoneMissing req.body then (.badRequest, s)
      else
        match insertOutcome with
        | .error _ => (.serverError, s)
        | .ok insertId =>
          let ids := assignId insertId s.sequence
          let entry := assembleEntry req receivedAt (toString ids.1)
          ( .ok
          , { callHistory := storeInHistory entry s.callHistory
            , lastCall := some entry
            , sequence := updatedSequence ids.2 ids.1
            , broadcasts := s.broadcasts ++ [entry] } )
    else (.unauthorized, s)

end IncomingCalls

namespace IncomingCalls

/-- A body whose `phone` field is present but the empty string while
`caller` carries a valid phone number. -/
def emptyPhoneBody : RequestBody :=
  { emptyBody with phone := .jstr "", caller := .jstr "0712345678" }

/-- Claim C1 counterexample: with `phone: ""` present and
`caller: "0712345678"` non-empty, the extracted value is the empty string
field — not the caller's non-empty value — and the request IS rejected
with 400 "phone missing" (state unchanged), because `??` falls through
only on null/undefined, not on empty strings. -/
theorem c1_empty_phone_counterexample :
    extractPhone emptyPhoneBody = .jstr "" ∧
    sanitizePhone (.jstr "0712345678") ≠ { display := "", digits := "" } ∧
    (postHandler none (.ok ()) (.ok (some 1))
      { body := emptyPhoneBody, headerSecret := .jundef, querySecret := .jundef }
      "2026-01-01T00:00:00.000Z" initialServerState).1 = .badRequest ∧
    (postHandler none (.ok ()) (.ok (some 1))
      { body := emptyPhoneBody, headerSecret := .jundef, querySecret := .jundef }
      "2026-01-01T00:00:00.000Z" initialServerState).2 = initialServerState := by
  refine ⟨by decide, by decide, by decide, by decide⟩

/-- Claim C1 amended: the phone value used is the first PRESENT
(non-null/undefined) value among the fields `phone`, `caller`, `number` —
presence, not non-emptiness, decides — and in particular a request whose
`phone` field is the empty string is rejected with 400 "phone missing"
regardless of the other fields. -/
theorem c1_phone_first_present_field (body : RequestBody) :
    (body.phone.isNullish = false → extractPhone body = body.phone) ∧
    (body.phone.isNullish = true → body.caller.isNullish = false →
      extractPhone body = body.caller) ∧
    (body.phone.isNullish = true → body.caller.isNullish = true →
      body.number.isNullish = false → extractPhone body = body.number) ∧
    (body.phone = .jstr "" → phoneMissing body = true) := by
  refine ⟨?_, ?_, ?_, ?_⟩
  · intro h
    unfold extractPhone jsCoalesce
    rw [if_neg (by rw [h]; exact Bool.false_ne_true)]
  · intro h1 h2
    unfold extractPhone jsCoalesce
    rw [if_pos h1, if_neg (by rw [h2]; exact Bool.false_ne_true)]
  · intro h1 h2 h3
    unfold extractPhone jsCoalesce
    rw [if_pos h1, if_pos h2, if_neg (by rw [h3]; exact Bool.false_ne_true)]
  · intro h
    have hextract : extractPhone body = .jstr "" := by
      unfold extractPhone jsCoalesce
      rw [h]
      rw [if_neg (by decide)]
    unfold phoneMissing
    rw [hextract]
    decide

/-- Claim C1 witness: concrete bodies discharging the hypotheses of
`c1_phone_first_present_field`. -/
theorem c1_phone_first_present_field_witness :
    extractPhone { emptyBody with phone := .jstr "0711" } = .jstr "0711" ∧
    extractPhone { emptyBody with phone := .jnull, caller := .jstr "0722" } = .jstr "0722" ∧
    extractPhone { emptyBody with number := .jstr "0733" } = .jstr "0733" ∧
    phoneMissing emptyPhoneBody = true :=
  ⟨(c1_phone_first_present_field { emptyBody with phone := .jstr "0711" }).1 (by decide),
   (c1_phone_first_present_field
      { emptyBody with phone := .jnull, caller := .jstr "0722" }).2.1 (by decide) (by decide),
   (c1_phone_first_present_field
      { emptyBody with number := .jstr "0733" }).2.2.1 (by decide) (by decide) (by decide),
   (c1_phone_first_present_field emptyPhoneBody).2.2.2 rfl⟩

/-- Claim C5: if the durable-store insert fails, the POST handler leaves
the module state completely unchanged — nothing is added to the history
ring, the last-known call is not reassigned, nothing is handed to
`broadcast`, the sequence stays — and the response is never a success;
when the request passed initialization, authorization and phone
validation, the response is exactly the 500 server error. -/
theorem c5_insert_failure_no_state_change (envSecret : Option String)
    (initOutcome : Except String Unit) (e : String) (req : PostRequest)
    (receivedAt : String) (s : ServerState) :
    (postHandler envSecret initOutcome (.error e) req receivedAt s).2 = s ∧
    (postHandler envSecret initOutcome (.error e) req receivedAt s).1 ≠ .ok ∧
    (initOutcome = .ok () → authPasses envSecret req = true →
      phoneMissing req.body = false →
      (postHandler envSecret initOutcome (.error e) req receivedAt s).1 = .serverError) := by
  unfold postHandler
  cases initOutcome with
  | error msg =>
    exact ⟨rfl, fun hcontra => PostResponse.noConfusion hcontra,
      fun h => Except.noConfusion h⟩
  | ok u =>
    cases u
    by_cases ha : authPasses envSecret req = true
    · rw [if_pos ha]
      by_cases hp : phoneMissing req.body = true
      · rw [if_pos hp]
        exact ⟨rfl, fun hcontra => PostResponse.noConfusion hcontra,
          fun _ _ hpf => absurd hp (by rw [hpf]; exact Bool.false_ne_true)⟩
      · rw [if_neg hp]
        exact ⟨rfl, fun hcontra => PostResponse.noConfusion hcontra, fun _ _ _ => rfl⟩
    · rw [if_neg ha]
      exact ⟨rfl, fun hcontra => PostResponse.noConfusion hcontra, fun _ haf _ => absurd haf ha⟩

/-- A body carrying a valid phone, used to exercise the happy path up to
the insert. -/
def validPhoneBody : RequestBody := { emptyBody with phone := .jstr "+40712345678" }

/-- Claim C5 witness: a concrete authorized request with a valid phone and
a failing insert — the response is the 500 server error and the state is
untouched. -/
theorem c5_insert_failure_no_state_change_witness :
    (postHandler none (.ok ()) (.error "insert failed")
      { body := validPhoneBody, headerSecret := .jundef, querySecret := .jundef }
      "2026-01-01T00:00:00.000Z" initialServerState).1 = .serverError ∧
    (postHandler none (.ok ()) (.error "insert failed")
      { body := validPhoneBody, headerSecret := .jundef, querySecret := .jundef }
      "2026-01-01T00:00:00.000Z" initialServerState).2 = initialServerState :=
  ⟨(c5_insert_failure_no_state_change none (.ok ()) "insert failed"
      { body := validPhoneBody, headerSecret := .jundef, querySecret := .jundef }
      "2026-01-01T00:00:00.000Z" initialServerState).2.2 rfl (by decide) (by decide),
   (c5_insert_failure_no_state_change none (.ok ()) "insert failed"
      { body := validPhoneBody, headerSecret := .jundef, querySecret := .jundef }
      "2026-01-01T00:00:00.000Z" initialServerState).1⟩

end IncomingCalls

namespace IncomingCalls

/-- A push leaves the pushed entry at the front of the ring. -/
theorem storeInHistory_head {α : Type} (e : α) (h : List α) :
    (storeInHistory e h).head? = some e := by
  unfold storeInHistory
  by_cases hl : (e :: h).length > MAX_HISTORY
  · rw [if_pos hl]
    cases h with
    | nil => simp [MAX_HISTORY] at hl
    | cons y t => rw [List.dropLast_cons₂]; rfl
  · rw [if_neg hl]; rfl

/-- A push never leaves the ring empty. -/
theorem storeInHistory_ne_nil {α : Type} (e : α) (h : List α) :
    storeInHistory e h ≠ [] := by
  intro hc
  have hh := storeInHistory_head e h
  rw [hc] at hh
  exact Option.noConfusion hh

/-- `Number(row.id) || 0` (line 95) for the id strings that occur: the
value of a non-empty all-digit decimal string, and 0 otherwise (a
non-numeric id gives NaN, which `|| 0` replaces). -/
def numberOfDigits (id : String) : Nat :=
  if !id.data.isEmpty && id.data.all Char.isDigit then
    id.data.foldl (fun acc c => 10 * acc + (c.toNat - 48)) 0
  else 0

/-- The state after the history bootstrap inside `ensurePersistenceReady`
(lines 74-100): the ring is seeded with the rows returned by the bootstrap
query (at most `MAX_HISTORY` of them, newest-first), `lastCall` becomes the
first row when any exists (line 98-100; it stays null otherwise), and the
sequence advances to the maximum observed id (line 95). -/
def bootstrapState (rows : List CallEntry) : ServerState :=
  { callHistory := rows
  , lastCall := rows.head?
  , sequence := rows.foldl (fun acc row => max acc (numberOfDigits row.id)) 0
  , broadcasts := [] }

/-- The per-request environment and store outcomes of one POST ingestion. -/
structure IngestInput where
  envSecret : Option String
  initOutcome : Except String Unit
  insertOutcome : Except String (Option Nat)
  req : PostRequest
  receivedAt : String

/-- One POST request applied to the module state. -/
def applyPost (inp : IngestInput) (s : ServerState) : PostResponse × ServerState :=
  postHandler inp.envSecret inp.initOutcome inp.insertOutcome inp.req inp.receivedAt s

/-- A sequence of POST requests processed in order, collecting the final
state and the list of responses. -/
def runIngests : List IngestInput → ServerState → ServerState × List PostResponse
  | [], s => (s, [])
  | inp :: rest, s =>
    ( (runIngests rest (applyPost inp s).2).1
    , (applyPost inp s).1 :: (runIngests rest (applyPost inp s).2).2 )

/-- Every POST either rejects and leaves the state untouched, or succeeds
and installs its freshly assembled entry both as `lastCall` and at the
front of the ring. -/
theorem applyPost_cases (inp : IngestInput) (s : ServerState) :
    ((applyPost inp s).1 ≠ .ok ∧ (applyPost inp s).2 = s) ∨
    ((applyPost inp s).1 = .ok ∧ ∃ e : CallEntry,
      (applyPost inp s).2.lastCall = some e ∧
      (applyPost inp s).2.callHistory.head? = some e ∧
      (applyPost inp s).2.callHistory ≠ []) := by
  unfold applyPost postHandler
  cases inp.initOutcome with
  | error msg => exact Or.inl ⟨fun h => PostResponse.noConfusion h, rfl⟩
  | ok u =>
    cases u
    by_cases ha : authPasses inp.envSecret inp.req = true
    · rw [if_pos ha]
      by_cases hp : phoneMissing inp.req.body = true
      · rw [if_pos hp]
        exact Or.inl ⟨fun h => PostResponse.noConfusion h, rfl⟩
      · rw [if_neg hp]
        cases inp.insertOutcome with
        | error e => exact Or.inl ⟨fun h => PostResponse.noConfusion h, rfl⟩
        | ok insertId =>
          refine Or.inr ⟨rfl,
            assembleEntry inp.req inp.receivedAt (toString (assignId insertId s.sequence).1),
            rfl, ?_, ?_⟩
          · exact storeInHistory_head _ _
          · exact storeInHistory_ne_nil _ _
    · rw [if_neg ha]
      exact Or.inl ⟨fun h => PostResponse.noConfusion h, rfl⟩

/-- Invariant carried through a run: `lastCall` mirrors the ring head, and
the ring is empty exactly when it started empty and no request succeeded. -/
theorem runIngests_inv : ∀ (inputs : List IngestInput) (s : ServerState),
    s.lastCall = s.callHistory.head? →
    (runIngests inputs s).1.lastCall = (runIngests inputs s).1.callHistory.head? ∧
    ((runIngests inputs s).1.callHistory = [] ↔
      (s.callHistory = [] ∧ PostResponse.ok ∉ (runIngests inputs s).2)) := by
  intro inputs
  induction inputs with
  | nil =>
    intro s hs
    exact ⟨hs, by simp [runIngests]⟩
  | cons inp rest ih =>
    intro s hs
    have hstep : runIngests (inp :: rest) s
        = ((runIngests rest (applyPost inp s).2).1,
           (applyPost inp s).1 :: (runIngests rest (applyPost inp s).2).2) := rfl
    rcases applyPost_cases inp s with ⟨hne, hst⟩ | ⟨hok, e, hlast, hhead, hnonnil⟩
    · rw [hstep, hst]
      obtain ⟨ih1, ih2⟩ := ih s hs
      refine ⟨ih1, ?_⟩
      rw [ih2]
      constructor
      · rintro ⟨h1, h2⟩
        refine ⟨h1, ?_⟩
        intro hmem
        rcases List.mem_cons.1 hmem with hcase | hcase
        · exact hne hcase.symm
        · exact h2 hcase
      · rintro ⟨h1, h2⟩
        exact ⟨h1, fun hm => h2 (List.mem_cons.2 (Or.inr hm))⟩
    · rw [hstep]
      have hs2 : (applyPost inp s).2.lastCall = (applyPost inp s).2.callHistory.head? := by
        rw [hlast, hhead]
      obtain ⟨ih1, ih2⟩ := ih (applyPost inp s).2 hs2
      refine ⟨ih1, ?_⟩
      constructor
      · intro hh
        exact absurd (ih2.1 hh).1 hnonnil
      · rintro ⟨h1, h2⟩
        exact absurd (List.mem_cons.2 (Or.inl hok.symm)) h2

/-- Claim C10: after the bootstrap and any sequence of ingestions, the
last-known call (served by `GET /last` and sent as the initial snapshot to
a new stream subscriber) equals the newest (front) entry of the History
Ring whenever the ring is non-empty, and it is null exactly when the
bootstrap found no persisted rows and no ingestion succeeded. -/
theorem c10_lastCall_matches_ring_head (rows : List CallEntry)
    (inputs : List IngestInput) :
    (runIngests inputs (bootstrapState rows)).1.lastCall =
      (runIngests inputs (bootstrapState rows)).1.callHistory.head? ∧
    ((runIngests inputs (bootstrapState rows)).1.lastCall = none ↔
      (rows = [] ∧ PostResponse.ok ∉ (runIngests inputs (bootstrapState rows)).2)) := by
  obtain ⟨h1, h2⟩ := runIngests_inv inputs (bootstrapState rows) rfl
  refine ⟨h1, ?_⟩
  rw [h1, List.head?_eq_none_iff, h2]
  exact Iff.rfl

end IncomingCalls
